import Mathlib

set_option maxHeartbeats 1000000

/-!
Shallow embedding of the college-attendance backend (src/main.py, src/schemas.py):
the student/attendance/admin store, the attendance-marking endpoint, the three
maintenance jobs, student CRUD and the admin recovery endpoints, together with
proofs of the specified properties.
-/

namespace CollegeBackend

/-- ASCII uppercase of a string, embedding Python str.upper as used on rolls. -/
def pyUpper (s : String) : String := String.mk (s.data.map Char.toUpper)

/-- ASCII lowercase of a string, embedding Python str.lower as used on admin user ids. -/
def pyLower (s : String) : String := String.mk (s.data.map Char.toLower)

/-- Python str.capitalize: first character uppercased, the rest lowercased. -/
def pyCapitalize (w : String) : String :=
  match w.data with
  | [] => ""
  | c :: cs => String.mk (c.toUpper :: cs.map Char.toLower)

/-- Split a character list at every occurrence of the separator, accumulating the current piece in reverse; embeds Python str.split with a one-character separator. -/
def splitCharAux (sep : Char) : List Char → List Char → List (List Char)
  | [], acc => [acc.reverse]
  | c :: cs, acc =>
    if c == sep then acc.reverse :: splitCharAux sep cs []
    else splitCharAux sep cs (c :: acc)

/-- Python str.split with separator "-". -/
def pySplitDash (s : String) : List String :=
  (splitCharAux '-' s.data []).map String.mk

/-- Split a character list at every whitespace character. -/
def splitWsAux : List Char → List Char → List (List Char)
  | [], acc => [acc.reverse]
  | c :: cs, acc =>
    if c.isWhitespace then acc.reverse :: splitWsAux cs []
    else splitWsAux cs (c :: acc)

/-- Python str.split with no argument: split on whitespace runs, dropping empty pieces. -/
def pySplitWs (s : String) : List String :=
  ((splitWsAux s.data []).filter (fun w => w ≠ [])).map String.mk

/-- Python str.strip: drop leading and trailing whitespace. -/
def pyStrip (s : String) : String :=
  String.mk (((s.data.dropWhile Char.isWhitespace).reverse.dropWhile Char.isWhitespace).reverse)

/-- Join a list of words with single spaces. -/
def joinSpace : List String → String
  | [] => ""
  | [w] => w
  | w :: ws => w ++ " " ++ joinSpace ws

/-- The name normalization of create_student and update_student: capitalize each whitespace-separated word and join with single spaces. -/
def titleJoin (s : String) : String :=
  joinSpace ((pySplitWs s).map pyCapitalize)

/-- Numeric value of a decimal digit character. -/
def digitVal (c : Char) : Nat := c.toNat - 48

/-- Parse a nonempty all-digit character list as a natural number: the plain digit runs matched by the strptime field patterns, which admit no sign, whitespace or underscores. -/
def pyToNat? (cs : List Char) : Option Nat :=
  if cs ≠ [] ∧ cs.all Char.isDigit then
    some (cs.foldl (fun n c => 10 * n + digitVal c) 0)
  else none

/-- Continue a digit run after its first digit: further digits, optionally separated by single underscores that must sit between two digits, as in the Python int grammar. -/
def digitsRest (acc : Nat) : List Char → Option Nat
  | [] => some acc
  | '_' :: c :: rest =>
    if c.isDigit then digitsRest (10 * acc + digitVal c) rest else none
  | ['_'] => none
  | c :: rest =>
    if c.isDigit then digitsRest (10 * acc + digitVal c) rest else none

/-- Start a digit run: a leading digit followed by the underscore-separated rest. -/
def startDigits : List Char → Option Nat
  | c :: rest => if c.isDigit then digitsRest (digitVal c) rest else none
  | [] => none

/-- Embeds Python int() on an ASCII string: surrounding whitespace is stripped, then an optional single sign directly precedes a nonempty digit run in which single underscores may separate digits; none embeds a raised ValueError. -/
def pyInt? (cs : List Char) : Option Int :=
  match (cs.dropWhile Char.isWhitespace).reverse.dropWhile Char.isWhitespace |>.reverse with
  | '+' :: rest => (startDigits rest).map (fun n => (n : Int))
  | '-' :: rest => (startDigits rest).map (fun n => -(n : Int))
  | rest => (startDigits rest).map (fun n => (n : Int))

/-- Gregorian leap-year test. -/
def isLeap (y : Int) : Bool := (y % 4 == 0 && y % 100 != 0) || (y % 400 == 0)

/-- Days in the months strictly before month m of a common year. -/
def cumMonth (m : Int) : Int :=
  if m ≤ 1 then 0 else if m = 2 then 31 else if m = 3 then 59
  else if m = 4 then 90 else if m = 5 then 120 else if m = 6 then 151
  else if m = 7 then 181 else if m = 8 then 212 else if m = 9 then 243
  else if m = 10 then 273 else if m = 11 then 304 else 334

/-- Day ordinal of the proleptic Gregorian date y-m-d (1 = 0001-01-01), as Python date.toordinal; calendar dates are represented by this ordinal throughout. -/
def toOrdinal (y m d : Int) : Int :=
  let yp := y - 1
  365 * yp + yp / 4 - yp / 100 + yp / 400
    + cumMonth m + (if 2 < m && isLeap y then 1 else 0) + d

/-- Length of month m in year y. -/
def daysInMonth (y m : Int) : Int :=
  if m = 2 then (if isLeap y then 29 else 28)
  else if m = 4 || m = 6 || m = 9 || m = 11 then 30 else 31

/-- Parse a YYYY-MM-DD string to a day ordinal, embedding datetime.strptime with format %Y-%m-%d: the year field is exactly four digits, month and day are one or two digits in range, and the resulting calendar date must exist; none embeds a raised ValueError. -/
def pyParseDate (s : String) : Option Int :=
  match pySplitDash s with
  | [ys, ms, ds] =>
    match pyToNat? ys.data, pyToNat? ms.data, pyToNat? ds.data with
    | some y, some m, some d =>
      if ys.data.length = 4 && ms.data.length ≤ 2 && ds.data.length ≤ 2
          && 1 ≤ (y : Int) && 1 ≤ (m : Int) && (m : Int) ≤ 12
          && 1 ≤ (d : Int) && (d : Int) ≤ daysInMonth y m then
        some (toOrdinal y m d)
      else none
    | _, _, _ => none
  | _ => none

/-- A Python datetime value: the calendar day (as ordinal) plus the time elapsed since midnight (in microseconds); datetime.today() carries a nonzero time component except exactly at midnight. -/
structure PyDateTime where
  day : Int
  tod : Nat
deriving DecidableEq, Repr

/-- Python datetime comparison a < b: lexicographic on (calendar day, time of day). -/
def dtLt (a b : PyDateTime) : Bool := a.day < b.day || (a.day == b.day && a.tod < b.tod)

/-- A row of the students table (models.Student as used by main.py); pin stores the hash. -/
structure Student where
  roll : String
  name : String
  branch : String
  dob : Int
  issue_valid : String
  pin : String
  photo : Option String
  photo_public_id : Option String
deriving DecidableEq, Repr

/-- A row of the attendance table. -/
structure Attendance where
  roll : String
  date : Int
  status : String
deriving DecidableEq, Repr

/-- A row of the admins table. -/
structure Admin where
  user_id : String
  password_hash : String
  answer1 : String
  answer2 : String
deriving DecidableEq, Repr

/-- The persistent store the endpoints and jobs read and mutate. -/
structure DB where
  students : List Student
  attendance : List Attendance
  admins : List Admin
deriving DecidableEq, Repr

/-- Modelled from the spec: get_password_hash lives in auth.py, which is not under src; the spec describes it only as an opaque one-way credential hasher, so a tagged injective stand-in is used. -/
def get_password_hash (s : String) : String := "bcrypt$" ++ s

/-- Number of attendance rows for a given (roll, date) key. -/
def cntA (l : List Attendance) (r : String) (d : Int) : Nat :=
  l.countP (fun a => a.roll == r && a.date == d)

/-- Outcome of POST /attendance/mark. -/
inductive MarkResult where
  | notFound
  | invalidDate
  | alreadyMarked
  | marked
deriving DecidableEq, Repr

/-- Embeds POST /attendance/mark (mark_attendance in main.py): student lookup by exact roll, date-equals-today check, existence check, then insert of a Present record; today is the server clock date.today(). -/
def mark_attendance (db : DB) (roll : String) (dt : Int) (today : Int) : MarkResult × DB :=
  match db.students.find? (fun s => s.roll == roll) with
  | none => (.notFound, db)
  | some _ =>
    if dt != today then (.invalidDate, db)
    else
      match db.attendance.find? (fun a => a.roll == roll && a.date == today) with
      | some _ => (.alreadyMarked, db)
      | none =>
        (.marked, { db with attendance := db.attendance ++ [⟨roll, today, "Present"⟩] })

/-- One loop iteration of mark_absent_students: insert an Absent record for the student when none exists for today. -/
def sweepStep (today : Int) (att : List Attendance) (s : Student) : List Attendance :=
  if att.any (fun a => a.roll == s.roll && a.date == today) then att
  else att ++ [⟨s.roll, today, "Absent"⟩]

/-- Embeds mark_absent_students in main.py: for every student in the store, insert an Absent record for today when none exists for (roll, today). -/
def mark_absent_students (db : DB) (today : Int) : DB :=
  { db with attendance := db.students.foldl (sweepStep today) db.attendance }

/-- Embeds int(issue_valid.split("-")[1]): the end-year fragment of the validity window; none embeds a raised IndexError or ValueError. -/
def parseEndYear (s : String) : Option Int :=
  match (pySplitDash s).get? 1 with
  | none => none
  | some frag => pyInt? frag.data

/-- How delete_expired_students treats one student. -/
inductive ExpiryCheck where
  | skipped      -- issue_valid falsy: the outer guard skips the student silently
  | errorLogged  -- the except branch ran: parse failure or datetime() out of range
  | expired      -- now is strictly after datetime(end_year, 12, 31)
  | kept
deriving DecidableEq, Repr

/-- The per-student decision of delete_expired_students: guard on a truthy issue_valid, parse the end year, resolve two-digit years by adding 2000, build datetime(end_year, 12, 31) (which raises outside years 1..9999) and compare it with now. -/
def checkStudent (now : PyDateTime) (s : Student) : ExpiryCheck :=
  if s.issue_valid == "" then .skipped
  else
    match parseEndYear s.issue_valid with
    | none => .errorLogged
    | some y0 =>
      let y := if y0 < 100 then y0 + 2000 else y0
      if y < 1 || 9999 < y then .errorLogged
      else if dtLt ⟨toOrdinal y 12 31, 0⟩ now then .expired
      else .kept

/-- One loop iteration of delete_expired_students: on expiry delete the attendance rows of the student and then the student row; on error record the roll in the printed log and continue. -/
def expiryStep (now : PyDateTime) (st : DB × List String) (s : Student) : DB × List String :=
  match checkStudent now s with
  | .expired =>
    ({ st.1 with
        students := st.1.students.filter (fun t => t.roll != s.roll),
        attendance := st.1.attendance.filter (fun a => a.roll != s.roll) }, st.2)
  | .errorLogged => (st.1, st.2 ++ [s.roll])
  | _ => st

/-- Embeds delete_expired_students in main.py: iterate over the snapshot of the student list taken at the start; the second component collects the rolls whose processing raised (the printed error log). -/
def delete_expired_students (db : DB) (now : PyDateTime) : DB × List String :=
  db.students.foldl (expiryStep now) (db, [])

/-- Embeds cleanup_old_attendance in main.py: cutoff is (now - timedelta(days=365)).date(), hence exactly now.day - 365; delete every attendance row dated strictly before it. -/
def cleanup_old_attendance (db : DB) (now : PyDateTime) : DB :=
  { db with attendance := db.attendance.filter (fun a => !(a.date < now.day - 365)) }

/-- Upload result of the object store (cloudinary.uploader.upload). -/
structure UploadResult where
  secure_url : String
  public_id : String
deriving DecidableEq, Repr

/-- Outcome of POST /students/. -/
inductive CreateResult where
  | conflict
  | created
deriving DecidableEq, Repr

/-- Embeds POST /students/ (create_student in main.py): normalize roll and name, reject a duplicate roll before any upload, otherwise upload the photo and insert the row. The boolean records whether the photo was uploaded to the object store. -/
def create_student (db : DB) (roll name branch : String) (dob : Int)
    (issue_valid pin : String) (up : UploadResult) : CreateResult × DB × Bool :=
  let rollU := pyUpper roll
  let nameT := titleJoin name
  if db.students.any (fun s => s.roll == rollU) then (.conflict, db, false)
  else
    (.created,
     { db with students := db.students ++
        [{ roll := rollU, name := nameT, branch := branch, dob := dob,
           issue_valid := issue_valid, pin := get_password_hash pin,
           photo := some up.secure_url, photo_public_id := some up.public_id }] },
     true)

/-- The optional form fields of PUT /students/roll. -/
structure UpdateReq where
  name : Option String
  dob : Option String
  issue_valid : Option String
  branch : Option String
  pin : Option String
  photo : Option UploadResult
deriving DecidableEq, Repr

/-- Outcome of PUT /students/roll; serverError embeds strptime raising on a malformed dob, after which nothing is committed. -/
inductive UpdateResult where
  | notFound
  | serverError
  | invalidPin
  | ok
deriving DecidableEq, Repr

/-- Python str.isdigit as used on the PIN: nonempty and every character a digit. -/
def pyIsDigit (s : String) : Bool := s != "" && s.toList.all Char.isDigit

/-- The db.commit() of update_student: replace the row carrying the (unique) roll of the student by the mutated ORM object. -/
def commitUpd (db : DB) (rollU : String) (s' : Student) : UpdateResult × DB :=
  (.ok, { db with students := db.students.map (fun t => if t.roll == rollU then s' else t) })

/-- The dob branch of update_student: parse and set the field when present and nonblank; none embeds the strptime exception. -/
def applyDob (s : Student) (dob : Option String) : Option Student :=
  match dob with
  | none => some s
  | some dstr =>
    if pyStrip dstr == "" then some s
    else
      match pyParseDate dstr with
      | none => none
      | some d => some { s with dob := d }

/-- Embeds PUT /students/roll (update_student in main.py): lookup by uppercased roll, then photo, name, dob, issue_valid, branch and PIN updates in source order; error exits leave the store unchanged because the session never commits. -/
def update_student (db : DB) (roll : String) (req : UpdateReq) : UpdateResult × DB :=
  let rollU := pyUpper roll
  match db.students.find? (fun s => s.roll == rollU) with
  | none => (.notFound, db)
  | some s0 =>
    let s1 := match req.photo with
      | some u => { s0 with photo := some u.secure_url, photo_public_id := some u.public_id }
      | none => s0
    let s2 := match req.name with
      | some n => if pyStrip n != "" then { s1 with name := titleJoin n } else s1
      | none => s1
    match applyDob s2 req.dob with
    | none => (.serverError, db)
    | some s3 =>
      let s4 := match req.issue_valid with
        | some v => if pyStrip v != "" then { s3 with issue_valid := v } else s3
        | none => s3
      let s5 := match req.branch with
        | some b => if pyStrip b != "" then { s4 with branch := b } else s4
        | none => s4
      match req.pin with
      | some p =>
        if pyStrip p != "" then
          if p.length != 4 || !(pyIsDigit p) then (.invalidPin, db)
          else commitUpd db rollU { s5 with pin := get_password_hash p }
        else commitUpd db rollU s5
      | none => commitUpd db rollU s5

/-- Embeds GET /students/roll (get_student in main.py): lookup by uppercased roll. -/
def get_student (db : DB) (roll : String) : Option Student :=
  db.students.find? (fun s => s.roll == pyUpper roll)

/-- Outcome of the admin recovery endpoints. -/
inductive AuthResult where
  | adminNotFound
  | wrongAnswers
  | ok
deriving DecidableEq, Repr

/-- Embeds POST /auth/verify-answers: lookup by lowercased user id, then exact string comparison of both recovery answers. -/
def verify_answers (db : DB) (userId a1 a2 : String) : AuthResult :=
  match db.admins.find? (fun ad => ad.user_id == pyLower userId) with
  | none => .adminNotFound
  | some ad =>
    if ad.answer1 != a1 || ad.answer2 != a2 then .wrongAnswers else .ok

/-- Embeds POST /auth/reset-password: lookup by lowercased user id, then set the password hash unconditionally; the recovery answers are not part of this request and are not checked here. -/
def reset_password (db : DB) (userId newPassword : String) : AuthResult × DB :=
  match db.admins.find? (fun ad => ad.user_id == pyLower userId) with
  | none => (.adminNotFound, db)
  | some _ =>
    (.ok, { db with admins := db.admins.map (fun ad => if ad.user_id == pyLower userId then { ad with password_hash := get_password_hash newPassword } else ad) })

/-- Truth of the dob branch succeeding, as a function of the request field alone. -/
def dobOk : Option String → Bool
  | none => true
  | some d => pyStrip d == "" || (pyParseDate d).isSome

/-! ### Concrete sample data for the closed witness and counterexample theorems -/

/-- Sample upload result. -/
def upX : UploadResult := ⟨"https://img.example/s1.png", "students/pid1"⟩

/-- Sample student with an uppercase roll and validity window 2021 to 2024. -/
def stCS101 : Student :=
  { roll := "CS101", name := "John Doe", branch := "CSE", dob := 700000,
    issue_valid := "21-24", pin := "bcrypt$1234", photo := none, photo_public_id := none }

/-- Sample student whose issue_valid is the empty string. -/
def stEmptyIV : Student :=
  { roll := "EE7", name := "Mia Roe", branch := "EEE", dob := 700001,
    issue_valid := "", pin := "bcrypt$0000", photo := none, photo_public_id := none }

/-- Sample admin row. -/
def adminRoot : Admin := ⟨"root", "h0", "cat", "dog"⟩

/-- Store with one student and no attendance. -/
def dbOneStudent : DB := ⟨[stCS101], [], []⟩

/-- Store with one student already marked Present on day 739000. -/
def dbMarked : DB := ⟨[stCS101], [⟨"CS101", 739000, "Present"⟩], []⟩

/-- Store with two attendance rows dated 365 and 366 days before day 739000. -/
def dbAtt : DB := ⟨[], [⟨"CS101", 739000 - 365, "Present"⟩, ⟨"CS101", 739000 - 366, "Absent"⟩], []⟩

/-- Store with one admin row. -/
def dbAdmin : DB := ⟨[], [], [adminRoot]⟩

/-- Store with the empty-issue_valid student. -/
def dbEmptyIV : DB := ⟨[stEmptyIV], [], []⟩

/-- A sample clock value whose date is day 739000. -/
def nowD : PyDateTime := ⟨739000, 123⟩

/-- Empty store. -/
def dbEmpty : DB := ⟨[], [], []⟩

/-- Sample student whose issue_valid has no dash, hence no end fragment to parse. -/
def stBadIV : Student :=
  { roll := "ME9", name := "Ada Poe", branch := "ME", dob := 700002,
    issue_valid := "abc", pin := "bcrypt$1111", photo := none, photo_public_id := none }

/-- Store holding the unparsable-window student next to an expired student, each with an attendance row. -/
def dbMix : DB :=
  ⟨[stBadIV, stCS101], [⟨"ME9", 739000, "Present"⟩, ⟨"CS101", 739000, "Present"⟩], []⟩

/-- Store with two students of which only the first is already marked for day 739000. -/
def dbSweep : DB := ⟨[stCS101, stEmptyIV], [⟨"CS101", 739000, "Present"⟩], []⟩

/-- Store with the sample student (validity window ending 2024) and one attendance row. -/
def dbExp : DB := ⟨[stCS101], [⟨"CS101", 739000, "Present"⟩], []⟩

/-- One microsecond past midnight, December 31, 2024. -/
def nowDec31 : PyDateTime := ⟨toOrdinal 2024 12 31, 1⟩

/-- Update request carrying only a malformed three-character PIN. -/
def reqPinBad : UpdateReq :=
  { name := none, dob := none, issue_valid := none, branch := none,
    pin := some "123", photo := none }

/-! ### Helper lemmas -/

lemma find?_isSome_of_mem {α} (p : α → Bool) {l : List α} {a : α}
    (ha : a ∈ l) (hp : p a = true) : (l.find? p).isSome := by
  rw [List.find?_isSome]
  exact ⟨a, ha, hp⟩

/-! ### C5: marking for a date other than today is rejected -/

/-- C5: for an existing student and a date different from today, mark_attendance fails with the invalid-date error and the store is unchanged. -/
theorem mark_attendance_rejects_non_today (db : DB) (roll : String) (d today : Int)
    (hs : ∃ s ∈ db.students, s.roll = roll) (hd : d ≠ today) :
    mark_attendance db roll d today = (.invalidDate, db) := by
  obtain ⟨s, hmem, hroll⟩ := hs
  have h1 : (db.students.find? (fun s => s.roll == roll)).isSome :=
    find?_isSome_of_mem _ hmem (by simp [hroll])
  obtain ⟨t, ht⟩ := Option.isSome_iff_exists.mp h1
  unfold mark_attendance
  rw [ht]
  simp [hd]

/-- Closed witness for the C5 theorem. -/
theorem mark_attendance_rejects_non_today_witness :
    mark_attendance dbOneStudent "CS101" 738999 739000 = (.invalidDate, dbOneStudent) :=
  mark_attendance_rejects_non_today dbOneStudent "CS101" 738999 739000
    ⟨stCS101, by decide, by decide⟩ (by decide)

/-! ### C4: the stale-attendance purge boundary -/

/-- C4: the stale-attendance purge keeps an attendance row exactly when its date is at least today minus 365 days, deletes the strictly older ones, and touches nothing else. -/
theorem cleanup_old_attendance_retention (db : DB) (now : PyDateTime) :
    (∀ a ∈ db.attendance,
        a ∈ (cleanup_old_attendance db now).attendance ↔ now.day - 365 ≤ a.date) ∧
    (∀ a ∈ (cleanup_old_attendance db now).attendance, a ∈ db.attendance) ∧
    (cleanup_old_attendance db now).students = db.students ∧
    (cleanup_old_attendance db now).admins = db.admins := by
  refine ⟨?_, ?_, rfl, rfl⟩
  · intro a ha
    unfold cleanup_old_attendance
    simp [List.mem_filter, ha, not_lt]
  · intro a ha
    exact List.mem_of_mem_filter ha

/-- Closed witness for the C4 theorem: the row dated exactly 365 days back is retained, the one dated 366 days back is deleted. -/
theorem cleanup_old_attendance_retention_witness :
    (⟨"CS101", 739000 - 365, "Present"⟩ : Attendance) ∈
      (cleanup_old_attendance dbAtt nowD).attendance ∧
    (⟨"CS101", 739000 - 366, "Absent"⟩ : Attendance) ∉
      (cleanup_old_attendance dbAtt nowD).attendance := by
  constructor
  · exact ((cleanup_old_attendance_retention dbAtt nowD).1 _ (by decide)).mpr (by decide)
  · intro hmem
    exact absurd (((cleanup_old_attendance_retention dbAtt nowD).1 _ (by decide)).mp hmem)
      (by decide)

/-! ### C7: duplicate roll on create -/

/-- C7: creating a student whose normalized roll is already stored fails with the conflict error, writes nothing and uploads no photo. -/
theorem create_student_duplicate_roll_conflict (db : DB) (roll name branch : String)
    (dob : Int) (iv pin : String) (up : UploadResult)
    (hnorm : ∀ s ∈ db.students, pyUpper s.roll = s.roll)
    (hex : ∃ s ∈ db.students, pyUpper s.roll = pyUpper roll) :
    create_student db roll name branch dob iv pin up = (.conflict, db, false) := by
  obtain ⟨s, hmem, hs⟩ := hex
  have hany : db.students.any (fun t => t.roll == pyUpper roll) = true := by
    rw [List.any_eq_true]
    refine ⟨s, hmem, ?_⟩
    rw [beq_iff_eq, ← hnorm s hmem]
    exact hs
  unfold create_student
  simp [hany]

/-- Closed witness for the C7 theorem. -/
theorem create_student_duplicate_roll_conflict_witness :
    create_student dbOneStudent "cs101" "Bob Roe" "EEE" 1 "22-25" "9999" upX =
      (.conflict, dbOneStudent, false) :=
  create_student_duplicate_roll_conflict dbOneStudent "cs101" "Bob Roe" "EEE" 1 "22-25" "9999" upX
    (by decide) ⟨stCS101, by decide, by decide⟩

/-! ### C10: mark-attendance roll matching is case-sensitive -/

/-- C10: mark_attendance matches rolls case-sensitively, so a case-variant of a stored uppercase roll is rejected as not found even though the normalized student lookup resolves it. -/
theorem mark_attendance_case_sensitive (db : DB) (r : String) (s : Student) (d today : Int)
    (hs : s ∈ db.students)
    (hnorm : ∀ t ∈ db.students, pyUpper t.roll = t.roll)
    (hcase : pyUpper r = s.roll) (hne : r ≠ s.roll) :
    mark_attendance db r d today = (.notFound, db) ∧ (get_student db r).isSome := by
  have hfind : db.students.find? (fun t => t.roll == r) = none := by
    rw [List.find?_eq_none]
    intro t ht hbeq
    rw [beq_iff_eq] at hbeq
    have hup : pyUpper r = r := by rw [← hbeq]; exact hnorm t ht
    exact hne (by rw [← hup]; exact hcase)
  constructor
  · unfold mark_attendance
    rw [hfind]
  · unfold get_student
    rw [List.find?_isSome]
    exact ⟨s, hs, by rw [beq_iff_eq]; exact hcase.symm⟩

/-- Closed witness for the C10 theorem. -/
theorem mark_attendance_case_sensitive_witness :
    mark_attendance dbOneStudent "cs101" 739000 739000 = (.notFound, dbOneStudent) ∧
    (get_student dbOneStudent "cs101").isSome :=
  mark_attendance_case_sensitive dbOneStudent "cs101" stCS101 739000 739000
    (by decide) (by decide) (by decide) (by decide)

/-! ### C8: the recovery flow -/

/-- C8 counterexample: with stored answers cat and dog, answer verification with x and y fails, yet the reset endpoint succeeds anyway and replaces the stored hash — the reset is not gated by the answers. -/
theorem reset_password_unguarded_counterexample :
    verify_answers dbAdmin "root" "x" "y" = .wrongAnswers ∧
    (reset_password dbAdmin "root" "newpw").1 = .ok ∧
    (reset_password dbAdmin "root" "newpw").2.admins =
      [⟨"root", get_password_hash "newpw", "cat", "dog"⟩] ∧
    get_password_hash "newpw" ≠ adminRoot.password_hash := by
  refine ⟨by decide, by decide, by decide, by decide⟩

/-- C8 amended: verify_answers succeeds exactly on exact string equality of both stored answers, while reset_password succeeds for any existing admin regardless of answers and replaces the stored hash. -/
theorem recovery_answers_exact_reset_unconditional (db : DB) (uid a1 a2 newpw : String)
    (ad : Admin)
    (hfind : db.admins.find? (fun x => x.user_id == pyLower uid) = some ad) :
    (verify_answers db uid a1 a2 = .ok ↔ (ad.answer1 = a1 ∧ ad.answer2 = a2)) ∧
    (reset_password db uid newpw).1 = .ok ∧
    { ad with password_hash := get_password_hash newpw } ∈
      (reset_password db uid newpw).2.admins := by
  have hmem : ad ∈ db.admins := List.mem_of_find?_eq_some hfind
  have hpred : (ad.user_id == pyLower uid) = true := by
    have h := List.find?_some hfind
    simpa using h
  refine ⟨?_, ?_, ?_⟩
  · unfold verify_answers
    rw [hfind]
    rcases Decidable.em (ad.answer1 = a1 ∧ ad.answer2 = a2) with h | h
    · simp [h.1, h.2]
    · have hcond : (ad.answer1 != a1 || ad.answer2 != a2) = true := by
        rw [Bool.or_eq_true, bne_iff_ne, bne_iff_ne]
        by_contra hc
        push_neg at hc
        exact h ⟨hc.1, hc.2⟩
      simp [hcond, h]
  · unfold reset_password
    rw [hfind]
  · unfold reset_password
    rw [hfind]
    simp only [List.mem_map]
    exact ⟨ad, hmem, by simp [hpred]⟩

/-- Closed witness for the C8 amended theorem. -/
theorem recovery_answers_exact_reset_unconditional_witness :
    (verify_answers dbAdmin "root" "cat" "dog" = .ok ↔
        (adminRoot.answer1 = "cat" ∧ adminRoot.answer2 = "dog")) ∧
    (reset_password dbAdmin "root" "np").1 = .ok ∧
    { adminRoot with password_hash := get_password_hash "np" } ∈
      (reset_password dbAdmin "root" "np").2.admins :=
  recovery_answers_exact_reset_unconditional dbAdmin "root" "cat" "dog" "np" adminRoot (by decide)

/-! ### C9: PIN validation -/

/-- C9 counterexample: create_student accepts a five-character PIN, creating the student instead of failing with an invalid-input error. -/
theorem create_student_no_pin_validation_counterexample :
    (create_student dbEmpty "cs1" "al bo" "CSE" 700000 "21-24" "12345" upX).1 = .created ∧
    (create_student dbEmpty "cs1" "al bo" "CSE" 700000 "21-24" "12345" upX).2.1.students ≠ [] := by
  refine ⟨by decide, by decide⟩

lemma any_roll_eq_false (l : List Student) (r : String)
    (hfree : ∀ t ∈ l, t.roll ≠ r) : l.any (fun t => t.roll == r) = false := by
  rw [List.any_eq_false]
  intro t ht
  simp [hfree t ht]

/-- C9 amended: the update path rejects a present, nonblank, non-4-digit PIN with the invalid-PIN error and commits nothing, while the create path performs no PIN validation and reports created whenever the requested roll is free. -/
theorem update_pin_validated_create_pin_unvalidated (db : DB) (roll : String) (req : UpdateReq)
    (p : String) (s0 : Student)
    (hfind : db.students.find? (fun s => s.roll == pyUpper roll) = some s0)
    (hdob : dobOk req.dob = true)
    (hpin : req.pin = some p) (hne : pyStrip p ≠ "")
    (hbad : ¬(p.length = 4 ∧ pyIsDigit p = true)) :
    update_student db roll req = (.invalidPin, db) ∧
    ∀ (db2 : DB) (r2 n2 b2 : String) (d2 : Int) (iv2 p2 : String) (u2 : UploadResult),
      (∀ t ∈ db2.students, t.roll ≠ pyUpper r2) →
      (create_student db2 r2 n2 b2 d2 iv2 p2 u2).1 = .created := by
  obtain ⟨nameF, dobF, ivF, brF, pinF, photoF⟩ := req
  simp only at hpin hdob
  subst hpin
  have hne' : (pyStrip p != "") = true := bne_iff_ne.mpr hne
  have hcond : (p.length != 4 || !(pyIsDigit p)) = true := by
    rw [Bool.or_eq_true, bne_iff_ne, Bool.not_eq_true']
    rcases Decidable.em (p.length = 4) with h4 | h4
    · right
      rcases Bool.eq_false_or_eq_true (pyIsDigit p) with hh | hh
      · exact absurd ⟨h4, hh⟩ hbad
      · exact hh
    · exact Or.inl h4
  constructor
  · cases dobF with
    | none =>
      simp [update_student, hfind, applyDob, hne', hcond]
    | some d =>
      simp only [dobOk, Bool.or_eq_true] at hdob
      rcases hdob with h1 | h2
      · simp [update_student, hfind, applyDob, h1, hne', hcond]
      · obtain ⟨v, hv⟩ := Option.isSome_iff_exists.mp h2
        by_cases h1 : (pyStrip d == "") = true
        · simp [update_student, hfind, applyDob, h1, hne', hcond]
        · simp [update_student, hfind, applyDob, h1, hv, hne', hcond]
  · intro db2 r2 n2 b2 d2 iv2 p2 u2 hfree
    simp [create_student, any_roll_eq_false db2.students (pyUpper r2) hfree]

/-- Closed witness for the C9 amended theorem. -/
theorem update_pin_validated_create_pin_unvalidated_witness :
    update_student dbOneStudent "cs101" reqPinBad = (.invalidPin, dbOneStudent) :=
  (update_pin_validated_create_pin_unvalidated dbOneStudent "cs101" reqPinBad "123" stCS101
    (by decide) (by decide) rfl (by decide) (by decide)).1

/-! ### Counting lemmas for the absentee sweep -/

lemma sweep_any_iff (att : List Attendance) (rl : String) (D : Int) :
    (att.any (fun a => a.roll == rl && a.date == D) = true) ↔ 0 < cntA att rl D := by
  rw [List.any_eq_true, cntA, List.countP_pos_iff]

lemma cntA_nil (r : String) (d : Int) : cntA [] r d = 0 := rfl

lemma cntA_append (l1 l2 : List Attendance) (r : String) (d : Int) :
    cntA (l1 ++ l2) r d = cntA l1 r d + cntA l2 r d := List.countP_append _ _ _

lemma cntA_le_one_of_pairwise (l : List Attendance) (r : String) (d : Int)
    (h : l.Pairwise (fun a b => ¬(a.roll = b.roll ∧ a.date = b.date))) :
    cntA l r d ≤ 1 := by
  induction l with
  | nil => simp [cntA]
  | cons a t ih =>
    rw [List.pairwise_cons] at h
    obtain ⟨ha, ht⟩ := h
    rw [cntA, List.countP_cons]
    by_cases hp : (a.roll == r && a.date == d) = true
    · have h0 : t.countP (fun x => x.roll == r && x.date == d) = 0 := by
        rw [List.countP_eq_zero]
        intro b hb hbp
        rw [Bool.and_eq_true, beq_iff_eq, beq_iff_eq] at hp hbp
        exact ha b hb ⟨by rw [hp.1, hbp.1], by rw [hp.2, hbp.2]⟩
      simp [h0, hp]
    · rw [if_neg hp]
      have := ih ht
      rw [cntA] at this
      omega

lemma sweepStep_cntA (D : Int) (att : List Attendance) (s : Student) (r : String) :
    cntA (sweepStep D att s) r D =
      if cntA att s.roll D = 0 ∧ s.roll = r then cntA att r D + 1 else cntA att r D := by
  unfold sweepStep
  by_cases hany : (att.any (fun a => a.roll == s.roll && a.date == D)) = true
  · rw [if_pos hany]
    have hpos : 0 < cntA att s.roll D := (sweep_any_iff att s.roll D).mp hany
    have : ¬(cntA att s.roll D = 0 ∧ s.roll = r) := fun hh => by omega
    rw [if_neg this]
  · rw [if_neg hany]
    have h0 : cntA att s.roll D = 0 := by
      rcases Nat.eq_zero_or_pos (cntA att s.roll D) with h | h
      · exact h
      · exact absurd ((sweep_any_iff att s.roll D).mpr h) hany
    rw [cntA_append]
    by_cases hr : s.roll = r
    · rw [if_pos ⟨h0, hr⟩]
      have : cntA [(⟨s.roll, D, "Absent"⟩ : Attendance)] r D = 1 := by
        rw [cntA, List.countP_cons]
        simp [hr]
      omega
    · rw [if_neg (fun hh => hr hh.2)]
      have : cntA [(⟨s.roll, D, "Absent"⟩ : Attendance)] r D = 0 := by
        rw [cntA, List.countP_cons]
        simp [hr]
      omega

lemma sweep_fold_mono (D : Int) (ss : List Student) (att : List Attendance) (r : String) :
    cntA att r D ≤ cntA (ss.foldl (sweepStep D) att) r D := by
  induction ss generalizing att with
  | nil => exact le_refl _
  | cons s ss ih =>
    rw [List.foldl_cons]
    refine le_trans ?_ (ih (sweepStep D att s))
    rw [sweepStep_cntA]
    split
    · omega
    · exact le_refl _

lemma sweep_fold_le_one (D : Int) (ss : List Student) (att : List Attendance) (r : String)
    (h : cntA att r D ≤ 1) : cntA (ss.foldl (sweepStep D) att) r D ≤ 1 := by
  induction ss generalizing att with
  | nil => exact h
  | cons s ss ih =>
    rw [List.foldl_cons]
    apply ih
    rw [sweepStep_cntA]
    split
    · rename_i hcond
      obtain ⟨h0, hr⟩ := hcond
      rw [hr] at h0
      omega
    · exact h

lemma sweep_fold_pos_of_mem (D : Int) (ss : List Student) (att : List Attendance)
    (s : Student) (hs : s ∈ ss) :
    0 < cntA (ss.foldl (sweepStep D) att) s.roll D := by
  induction ss generalizing att with
  | nil => cases hs
  | cons t ss ih =>
    rw [List.foldl_cons]
    rcases List.mem_cons.mp hs with h | h
    · subst h
      refine lt_of_lt_of_le ?_ (sweep_fold_mono D ss _ _)
      rw [sweepStep_cntA]
      split
      · omega
      · rename_i hcond
        have : ¬ cntA att s.roll D = 0 := fun h0 => hcond ⟨h0, rfl⟩
        omega
    · exact ih _ h

lemma sweep_fold_suffix (D : Int) (ss : List Student) (att : List Attendance) :
    ∃ suf, ss.foldl (sweepStep D) att = att ++ suf ∧
      ∀ a ∈ suf, a.date = D ∧ a.status = "Absent" := by
  induction ss generalizing att with
  | nil => exact ⟨[], by simp, by simp⟩
  | cons s ss ih =>
    rw [List.foldl_cons]
    by_cases hany : (att.any (fun a => a.roll == s.roll && a.date == D)) = true
    · have hstep : sweepStep D att s = att := by
        unfold sweepStep
        rw [if_pos hany]
      rw [hstep]
      exact ih att
    · have hstep : sweepStep D att s = att ++ [⟨s.roll, D, "Absent"⟩] := by
        unfold sweepStep
        rw [if_neg hany]
      rw [hstep]
      obtain ⟨suf, heq, hprop⟩ := ih (att ++ [⟨s.roll, D, "Absent"⟩])
      refine ⟨⟨s.roll, D, "Absent"⟩ :: suf, ?_, ?_⟩
      · rw [heq, List.append_assoc]
        rfl
      · intro a ha
        rcases List.mem_cons.mp ha with h | h
        · subst h
          exact ⟨rfl, rfl⟩
        · exact hprop a h

lemma sweep_fold_noop (D : Int) (ss : List Student) (att : List Attendance)
    (h : ∀ s ∈ ss, 0 < cntA att s.roll D) :
    ss.foldl (sweepStep D) att = att := by
  induction ss with
  | nil => rfl
  | cons s ss ih =>
    rw [List.foldl_cons]
    have hstep : sweepStep D att s = att := by
      unfold sweepStep
      rw [if_pos ((sweep_any_iff att s.roll D).mpr (h s (List.mem_cons_self s ss)))]
    rw [hstep]
    exact ih (fun t ht => h t (List.mem_cons_of_mem _ ht))

/-! ### C1: the absentee sweep -/

/-- C1: after the absentee sweep for day D over a store with at most one attendance row per (roll, date), every student has exactly one row for D, the rows present before the sweep are preserved verbatim as a prefix, every added row is an Absent row dated D, and re-running the sweep for D changes nothing. -/
theorem sweep_marks_every_student_exactly_once (db : DB) (D : Int)
    (huniq : db.attendance.Pairwise (fun a b => ¬(a.roll = b.roll ∧ a.date = b.date))) :
    (mark_absent_students db D).students = db.students ∧
    (∀ s ∈ db.students, cntA (mark_absent_students db D).attendance s.roll D = 1) ∧
    (∃ suf, (mark_absent_students db D).attendance = db.attendance ++ suf ∧
        ∀ a ∈ suf, a.date = D ∧ a.status = "Absent") ∧
    mark_absent_students (mark_absent_students db D) D = mark_absent_students db D := by
  refine ⟨rfl, ?_, ?_, ?_⟩
  · intro s hs
    have hpos := sweep_fold_pos_of_mem D db.students db.attendance s hs
    have hle := sweep_fold_le_one D db.students db.attendance s.roll
      (cntA_le_one_of_pairwise db.attendance s.roll D huniq)
    show cntA (db.students.foldl (sweepStep D) db.attendance) s.roll D = 1
    omega
  · exact sweep_fold_suffix D db.students db.attendance
  · show mark_absent_students
      ⟨db.students, db.students.foldl (sweepStep D) db.attendance, db.admins⟩ D = _
    unfold mark_absent_students
    simp only
    congr 1
    exact sweep_fold_noop D db.students _
      (fun s hs => sweep_fold_pos_of_mem D db.students db.attendance s hs)

/-- Closed witness for the C1 theorem: one student already marked Present, one unmarked. -/
theorem sweep_marks_every_student_exactly_once_witness :
    (∀ s ∈ dbSweep.students,
        cntA (mark_absent_students dbSweep 739000).attendance s.roll 739000 = 1) ∧
    mark_absent_students (mark_absent_students dbSweep 739000) 739000 =
      mark_absent_students dbSweep 739000 :=
  ⟨(sweep_marks_every_student_exactly_once dbSweep 739000 (by decide)).2.1,
   (sweep_marks_every_student_exactly_once dbSweep 739000 (by decide)).2.2.2⟩

/-! ### C2: idempotence of mark-attendance -/

/-- C2: when a row already exists for (roll, today), mark_attendance reports already-marked and leaves the store untouched (no status is ever overwritten), and two consecutive calls starting from at most one row for the key leave exactly one row for (roll, today). -/
theorem mark_attendance_idempotent (db : DB) (roll : String) (today : Int)
    (hs : ∃ s ∈ db.students, s.roll = roll)
    (hcnt : cntA db.attendance roll today ≤ 1) :
    ((∃ a ∈ db.attendance, a.roll = roll ∧ a.date = today) →
        mark_attendance db roll today today = (.alreadyMarked, db)) ∧
    cntA ((mark_attendance ((mark_attendance db roll today today).2)
        roll today today).2).attendance roll today = 1 := by
  obtain ⟨s, hmem, hroll⟩ := hs
  have hS : (db.students.find? (fun t => t.roll == roll)).isSome :=
    find?_isSome_of_mem _ hmem (by simp [hroll])
  obtain ⟨t, ht⟩ := Option.isSome_iff_exists.mp hS
  by_cases hex : ∃ a ∈ db.attendance, a.roll = roll ∧ a.date = today
  · have hA : (db.attendance.find? (fun a => a.roll == roll && a.date == today)).isSome := by
      obtain ⟨a, ha, h1, h2⟩ := hex
      exact find?_isSome_of_mem _ ha (by simp [h1, h2])
    obtain ⟨rec, hrec⟩ := Option.isSome_iff_exists.mp hA
    have hmark : mark_attendance db roll today today = (.alreadyMarked, db) := by
      unfold mark_attendance
      rw [ht]
      simp only [bne_self_eq_false, Bool.false_eq_true, if_false]
      rw [hrec]
    have h2 : (mark_attendance db roll today today).2 = db := by rw [hmark]
    refine ⟨fun _ => hmark, ?_⟩
    rw [h2, hmark]
    show cntA db.attendance roll today = 1
    have hpos : 0 < cntA db.attendance roll today := by
      rw [cntA, List.countP_pos_iff]
      obtain ⟨a, ha, h1, hd⟩ := hex
      exact ⟨a, ha, by simp [h1, hd]⟩
    omega
  · have hA0 : db.attendance.find? (fun a => a.roll == roll && a.date == today) = none := by
      rw [List.find?_eq_none]
      intro a ha hp
      rw [Bool.and_eq_true, beq_iff_eq, beq_iff_eq] at hp
      exact hex ⟨a, ha, hp.1, hp.2⟩
    have hcnt0 : cntA db.attendance roll today = 0 := by
      rw [cntA, List.countP_eq_zero]
      intro a ha hp
      rw [Bool.and_eq_true, beq_iff_eq, beq_iff_eq] at hp
      exact hex ⟨a, ha, hp.1, hp.2⟩
    have hm1 : mark_attendance db roll today today =
        (.marked, { db with attendance := db.attendance ++ [⟨roll, today, "Present"⟩] }) := by
      unfold mark_attendance
      rw [ht]
      simp only [bne_self_eq_false, Bool.false_eq_true, if_false]
      rw [hA0]
    have h2 : (mark_attendance db roll today today).2 =
        { db with attendance := db.attendance ++ [⟨roll, today, "Present"⟩] } := by rw [hm1]
    refine ⟨fun h => absurd h hex, ?_⟩
    rw [h2]
    have hS1 : (({ db with attendance := db.attendance ++ [⟨roll, today, "Present"⟩] } :
        DB).students.find? (fun t => t.roll == roll)) = some t := ht
    have hA1 : (({ db with attendance := db.attendance ++ [⟨roll, today, "Present"⟩] } :
        DB).attendance.find? (fun a => a.roll == roll && a.date == today)).isSome := by
      apply find?_isSome_of_mem (a := (⟨roll, today, "Present"⟩ : Attendance))
      · simp
      · simp
    obtain ⟨rec, hrec⟩ := Option.isSome_iff_exists.mp hA1
    have hm2 : mark_attendance
        { db with attendance := db.attendance ++ [⟨roll, today, "Present"⟩] } roll today today =
        (.alreadyMarked, { db with attendance := db.attendance ++ [⟨roll, today, "Present"⟩] }) := by
      unfold mark_attendance
      rw [hS1]
      simp only [bne_self_eq_false, Bool.false_eq_true, if_false]
      rw [hrec]
    rw [hm2]
    show cntA (db.attendance ++ [⟨roll, today, "Present"⟩]) roll today = 1
    rw [cntA_append, hcnt0]
    have : cntA [(⟨roll, today, "Present"⟩ : Attendance)] roll today = 1 := by
      rw [cntA, List.countP_cons]
      simp
    omega

/-- Closed witness for the C2 theorem. -/
theorem mark_attendance_idempotent_witness :
    mark_attendance dbMarked "CS101" 739000 739000 = (.alreadyMarked, dbMarked) ∧
    cntA ((mark_attendance ((mark_attendance dbMarked "CS101" 739000 739000).2)
        "CS101" 739000 739000).2).attendance "CS101" 739000 = 1 := by
  have h := mark_attendance_idempotent dbMarked "CS101" 739000
    ⟨stCS101, by decide, by decide⟩ (by decide)
  exact ⟨h.1 ⟨⟨"CS101", 739000, "Present"⟩, by decide, by decide, by decide⟩, h.2⟩

/-! ### Fold lemmas for the expired-student purge -/

lemma expiry_fold_no_roll_students (now : PyDateTime) (ss : List Student)
    (st : DB × List String) (r : String)
    (h : ∀ t ∈ st.1.students, t.roll ≠ r) :
    ∀ t ∈ (ss.foldl (expiryStep now) st).1.students, t.roll ≠ r := by
  induction ss generalizing st with
  | nil => exact h
  | cons u ss ih =>
    rw [List.foldl_cons]
    apply ih
    intro t ht
    unfold expiryStep at ht
    split at ht
    · exact h t (List.mem_of_mem_filter ht)
    · exact h t ht
    · exact h t ht

lemma expiry_fold_no_roll_attendance (now : PyDateTime) (ss : List Student)
    (st : DB × List String) (r : String)
    (h : ∀ a ∈ st.1.attendance, a.roll ≠ r) :
    ∀ a ∈ (ss.foldl (expiryStep now) st).1.attendance, a.roll ≠ r := by
  induction ss generalizing st with
  | nil => exact h
  | cons u ss ih =>
    rw [List.foldl_cons]
    apply ih
    intro a ha
    unfold expiryStep at ha
    split at ha
    · exact h a (List.mem_of_mem_filter ha)
    · exact h a ha
    · exact h a ha

lemma expiry_fold_kill (now : PyDateTime) (ss : List Student)
    (st : DB × List String) (s : Student)
    (hs : s ∈ ss) (hc : checkStudent now s = .expired) :
    (∀ t ∈ (ss.foldl (expiryStep now) st).1.students, t.roll ≠ s.roll) ∧
    (∀ a ∈ (ss.foldl (expiryStep now) st).1.attendance, a.roll ≠ s.roll) := by
  induction ss generalizing st with
  | nil => cases hs
  | cons u ss ih =>
    rw [List.foldl_cons]
    rcases List.mem_cons.mp hs with h | h
    · subst h
      have hstep : expiryStep now st s =
          ({ st.1 with
              students := st.1.students.filter (fun t => t.roll != s.roll),
              attendance := st.1.attendance.filter (fun a => a.roll != s.roll) }, st.2) := by
        unfold expiryStep
        rw [hc]
      rw [hstep]
      constructor
      · apply expiry_fold_no_roll_students
        intro t ht
        have := (List.mem_filter.mp ht).2
        simpa [bne_iff_ne] using this
      · apply expiry_fold_no_roll_attendance
        intro a ha
        have := (List.mem_filter.mp ha).2
        simpa [bne_iff_ne] using this
    · exact ih _ h

lemma expiry_fold_keep (now : PyDateTime) (ss : List Student)
    (st : DB × List String) (s : Student)
    (hmem : s ∈ st.1.students)
    (h : ∀ t ∈ ss, t.roll = s.roll → checkStudent now t ≠ .expired) :
    s ∈ (ss.foldl (expiryStep now) st).1.students := by
  induction ss generalizing st with
  | nil => exact hmem
  | cons u ss ih =>
    rw [List.foldl_cons]
    apply ih
    · unfold expiryStep
      split
      · rename_i hexp
        show s ∈ st.1.students.filter (fun t => t.roll != u.roll)
        rw [List.mem_filter]
        refine ⟨hmem, ?_⟩
        rw [bne_iff_ne]
        intro heq
        exact h u (List.mem_cons_self u ss) heq.symm hexp
      · exact hmem
      · exact hmem
    · intro t ht
      exact h t (List.mem_cons_of_mem _ ht)

lemma expiry_fold_log_mono (now : PyDateTime) (ss : List Student)
    (st : DB × List String) (r : String)
    (h : r ∈ st.2) : r ∈ (ss.foldl (expiryStep now) st).2 := by
  induction ss generalizing st with
  | nil => exact h
  | cons u ss ih =>
    rw [List.foldl_cons]
    apply ih
    unfold expiryStep
    split
    · exact h
    · exact List.mem_append_left _ h
    · exact h

lemma expiry_fold_logs (now : PyDateTime) (ss : List Student)
    (st : DB × List String) (s : Student)
    (hs : s ∈ ss) (hc : checkStudent now s = .errorLogged) :
    s.roll ∈ (ss.foldl (expiryStep now) st).2 := by
  induction ss generalizing st with
  | nil => cases hs
  | cons u ss ih =>
    rw [List.foldl_cons]
    rcases List.mem_cons.mp hs with h | h
    · subst h
      apply expiry_fold_log_mono
      have hstep : expiryStep now st s = (st.1, st.2 ++ [s.roll]) := by
        unfold expiryStep
        rw [hc]
      rw [hstep]
      exact List.mem_append_right _ (List.mem_singleton.mpr rfl)
    · exact ih _ h

lemma expiry_fold_att_filter (now : PyDateTime) (ss : List Student)
    (st : DB × List String) (r : String)
    (h : ∀ t ∈ ss, t.roll = r → checkStudent now t ≠ .expired) :
    ((ss.foldl (expiryStep now) st).1.attendance.filter (fun a => a.roll == r)) =
      st.1.attendance.filter (fun a => a.roll == r) := by
  induction ss generalizing st with
  | nil => rfl
  | cons u ss ih =>
    rw [List.foldl_cons]
    rw [ih _ (fun t ht => h t (List.mem_cons_of_mem _ ht))]
    unfold expiryStep
    split
    · rename_i hexp
      have hur : u.roll ≠ r := fun heq => h u (List.mem_cons_self u ss) heq hexp
      show (st.1.attendance.filter (fun a => a.roll != u.roll)).filter (fun a => a.roll == r) =
        st.1.attendance.filter (fun a => a.roll == r)
      rw [List.filter_filter]
      apply List.filter_congr
      intro a _
      by_cases har : a.roll = r
      · simp [har]
        exact fun hh => hur hh.symm
      · simp [har]
    · rfl
    · rfl

/-- checkStudent under a successful parse of the end year: the decision reduces to the datetime comparison against midnight of December 31 of the resolved year. -/
lemma checkStudent_parsed (now : PyDateTime) (s : Student) (y0 y : Int)
    (hparse : parseEndYear s.issue_valid = some y0)
    (hy : y = if y0 < 100 then y0 + 2000 else y0)
    (hrange : 1 ≤ y ∧ y ≤ 9999) :
    checkStudent now s =
      (if dtLt ⟨toOrdinal y 12 31, 0⟩ now then ExpiryCheck.expired else ExpiryCheck.kept) := by
  have hnemp : (s.issue_valid == "") = false := by
    rw [beq_eq_false_iff_ne]
    intro h
    rw [h] at hparse
    rw [show parseEndYear "" = none from rfl] at hparse
    cases hparse
  have hrange' : (y < 1 || 9999 < y) = false := by
    rw [Bool.or_eq_false_iff]
    constructor
    · rw [decide_eq_false_iff_not]
      omega
    · rw [decide_eq_false_iff_not]
      omega
  unfold checkStudent
  rw [hnemp]
  simp only [Bool.false_eq_true, if_false, hparse, ← hy, hrange']

/-! ### C3: the expiry boundary -/

/-- C3 counterexample: the purge run one microsecond past midnight on 2024-12-31 — a moment on, not after, 2024-12-31 — already deletes the student with issue_valid 21-24 together with the attendance rows. -/
theorem expiry_on_dec31_counterexample :
    nowDec31.day = toOrdinal 2024 12 31 ∧
    (delete_expired_students dbExp nowDec31).1.students = [] ∧
    (delete_expired_students dbExp nowDec31).1.attendance = [] := by
  refine ⟨rfl, by decide, by decide⟩

/-- C3 amended: the purge deletes a student (with every attendance row of that roll) exactly when now, as a datetime, is strictly after midnight at the start of December 31 of the resolved end-year; at or before that midnight instant the student is retained — so deletion already happens during December 31 itself, one day earlier than the spec states. -/
theorem expiry_deletes_after_midnight_dec31 (db : DB) (now : PyDateTime)
    (s : Student) (y0 y : Int)
    (hmem : s ∈ db.students)
    (hone : ∀ t ∈ db.students, t.roll = s.roll → t = s)
    (hparse : parseEndYear s.issue_valid = some y0)
    (hy : y = if y0 < 100 then y0 + 2000 else y0)
    (hrange : 1 ≤ y ∧ y ≤ 9999) :
    (dtLt ⟨toOrdinal y 12 31, 0⟩ now = true →
        (∀ t ∈ (delete_expired_students db now).1.students, t.roll ≠ s.roll) ∧
        (∀ a ∈ (delete_expired_students db now).1.attendance, a.roll ≠ s.roll)) ∧
    (dtLt ⟨toOrdinal y 12 31, 0⟩ now = false →
        s ∈ (delete_expired_students db now).1.students) := by
  constructor
  · intro hlt
    have hc : checkStudent now s = .expired := by
      rw [checkStudent_parsed now s y0 y hparse hy hrange, hlt]
      rfl
    exact expiry_fold_kill now db.students (db, []) s hmem hc
  · intro hlt
    have hc : checkStudent now s = .kept := by
      rw [checkStudent_parsed now s y0 y hparse hy hrange, hlt]
      rfl
    apply expiry_fold_keep now db.students (db, []) s hmem
    intro t ht heq
    rw [hone t ht heq, hc]
    simp

/-- Closed witness for the C3 amended theorem: the sample student is purged on 2025-01-01 and retained at exactly midnight 2024-12-31T00:00:00. -/
theorem expiry_deletes_after_midnight_dec31_witness :
    (∀ t ∈ (delete_expired_students dbExp ⟨toOrdinal 2025 1 1, 0⟩).1.students,
        t.roll ≠ stCS101.roll) ∧
    stCS101 ∈ (delete_expired_students dbExp ⟨toOrdinal 2024 12 31, 0⟩).1.students := by
  constructor
  · exact ((expiry_deletes_after_midnight_dec31 dbExp ⟨toOrdinal 2025 1 1, 0⟩ stCS101 24 2024
      (by decide) (by decide) (by decide) (by decide) ⟨by decide, by decide⟩).1 (by decide)).1
  · exact (expiry_deletes_after_midnight_dec31 dbExp ⟨toOrdinal 2024 12 31, 0⟩ stCS101 24 2024
      (by decide) (by decide) (by decide) (by decide) ⟨by decide, by decide⟩).2 (by decide)

/-! ### C6: fail-soft handling of unparsable validity windows -/

/-- C6 counterexample: a student whose issue_valid is the empty string — a missing end fragment — is skipped and kept, but the job logs nothing for that student, against the claim that every unparsable window is logged. -/
theorem empty_issue_valid_not_logged_counterexample :
    parseEndYear stEmptyIV.issue_valid = none ∧
    (delete_expired_students dbEmptyIV nowD).1 = dbEmptyIV ∧
    (delete_expired_students dbEmptyIV nowD).2 = [] := by
  refine ⟨rfl, by decide, by decide⟩

/-- C6 amended: a student whose nonempty issue_valid fails to parse is skipped and logged; one with an empty (falsy) issue_valid is skipped silently; in both cases the student is never deleted and the attendance rows of that roll are untouched, and the job still examines every other student and deletes each expired one. -/
theorem unparsable_issue_valid_fail_soft (db : DB) (now : PyDateTime) (s : Student)
    (hmem : s ∈ db.students)
    (hone : ∀ t ∈ db.students, t.roll = s.roll → t = s)
    (hparse : parseEndYear s.issue_valid = none) :
    s ∈ (delete_expired_students db now).1.students ∧
    ((delete_expired_students db now).1.attendance.filter (fun a => a.roll == s.roll) =
        db.attendance.filter (fun a => a.roll == s.roll)) ∧
    (s.issue_valid ≠ "" → s.roll ∈ (delete_expired_students db now).2) ∧
    (∀ t ∈ db.students, checkStudent now t = .expired →
        t ∉ (delete_expired_students db now).1.students) := by
  have hnexp : checkStudent now s ≠ .expired := by
    unfold checkStudent
    by_cases h : (s.issue_valid == "") = true
    · simp [h]
    · rw [Bool.not_eq_true] at h
      simp only [h, Bool.false_eq_true, if_false, hparse]
      simp
  refine ⟨?_, ?_, ?_, ?_⟩
  · exact expiry_fold_keep now db.students (db, []) s hmem
      (fun t ht heq => by rw [hone t ht heq]; exact hnexp)
  · exact expiry_fold_att_filter now db.students (db, []) s.roll
      (fun t ht heq => by rw [hone t ht heq]; exact hnexp)
  · intro hne
    have hfalse : (s.issue_valid == "") = false := beq_eq_false_iff_ne.mpr hne
    have hc : checkStudent now s = .errorLogged := by
      unfold checkStudent
      simp only [hfalse, Bool.false_eq_true, if_false, hparse]
    exact expiry_fold_logs now db.students (db, []) s hmem hc
  · intro t ht hc hmem'
    exact (expiry_fold_kill now db.students (db, []) t ht hc).1 t hmem' rfl

/-- Closed witness for the C6 amended theorem: the job run mid-2025 keeps and logs the student with the unparsable window while still deleting the expired one. -/
theorem unparsable_issue_valid_fail_soft_witness :
    stBadIV ∈ (delete_expired_students dbMix ⟨toOrdinal 2025 6 1, 0⟩).1.students ∧
    stBadIV.roll ∈ (delete_expired_students dbMix ⟨toOrdinal 2025 6 1, 0⟩).2 := by
  have h := unparsable_issue_valid_fail_soft dbMix ⟨toOrdinal 2025 6 1, 0⟩ stBadIV
    (by decide) (by decide) (by decide)
  exact ⟨h.1, h.2.2.1 (by decide)⟩

end CollegeBackend
